import Mathlib

/-!
Verification of the PTSP solution evaluator (evaluator.py).

The evaluator scores candidate solutions of a multi-plant
production-distribution scheduling problem.  We give a shallow embedding
of the two core functions, get_travel_time and evaluate, and prove the
specification claims about them.

Modelling conventions:
- Python floats are modelled by real numbers.
- A Python location dictionary is a record with optional fields; a missing
  key corresponds to a field holding none.
- A Python exception (IndexError, KeyError, AssertionError) is modelled by
  the Except.error constructor; the string sentinel INF_RETURN returned for
  infeasible solutions is modelled by Except.ok none; a numeric makespan m
  by Except.ok (some m).
- The loops of evaluate are modelled by structural recursions that carry
  exactly the state the Python code carries.
-/

namespace PTSP

noncomputable section

/-- A location record, i.e. a Python dictionary that may carry the keys
x, y and demand.  A missing key is modelled by the value none. -/
structure Location where
  x : Option ℝ
  y : Option ℝ
  demand : Option ℝ

instance : Inhabited Location := ⟨⟨none, none, none⟩⟩

/-- The tolerance constant EPS_VALUE = 0.000001 of evaluator.py. -/
def EPS_VALUE : ℝ := 1 / 1000000

/-- Python list indexing locations[i]; raises IndexError when out of range. -/
def getLoc (locations : List Location) (i : ℕ) : Except String Location :=
  match locations.get? i with
  | some l => .ok l
  | none => .error "IndexError: list index out of range"

/-- Python locations[i]['demand']; raises KeyError when the key is missing. -/
def getDemand (locations : List Location) (i : ℕ) : Except String ℝ :=
  match getLoc locations i with
  | .error e => .error e
  | .ok l =>
    match l.demand with
    | some d => .ok d
    | none => .error "KeyError: demand"

/-- Python sum of the demands of the customers of a batch, accumulated left
to right starting from the given accumulator. -/
def sumDemandsAux (locations : List Location) (batch : List ℕ) (acc : ℝ) :
    Except String ℝ :=
  match batch with
  | [] => .ok acc
  | i :: rest =>
    match getDemand locations i with
    | .error e => .error e
    | .ok d => sumDemandsAux locations rest (acc + d)

/-- Application of the optional rounding function: the distance is returned
unmodified when no rounding function is supplied. -/
def applyRounding (rounding : Option (ℝ → ℝ)) (d : ℝ) : ℝ :=
  match rounding with
  | none => d
  | some f => f d

/-- Embedding of get_travel_time (evaluator.py, lines 19-42): asserts that
both indices are in range and that both locations carry the keys x and y,
then returns the Euclidean distance between the two locations, passed
through the rounding function when one is supplied. -/
def get_travel_time (locations : List Location) (loc_a loc_b : ℕ)
    (rounding : Option (ℝ → ℝ)) : Except String ℝ :=
  if loc_a < locations.length then
    if loc_b < locations.length then
      match (locations.getD loc_a default).x, (locations.getD loc_a default).y with
      | some xa, some ya =>
        match (locations.getD loc_b default).x, (locations.getD loc_b default).y with
        | some xb, some yb =>
          .ok (applyRounding rounding (Real.sqrt ((xa - xb) ^ 2 + (ya - yb) ^ 2)))
        | _, _ => .error "AssertionError: invalid location dictionary"
      | _, _ => .error "AssertionError: invalid location dictionary"
    else .error "AssertionError: invalid location index"
  else .error "AssertionError: invalid location index"

/-- Sum of the travel times between consecutive customers of a batch
(evaluator.py, line 105), accumulated left to right. -/
def legsAux (locations : List Location) (rounding : Option (ℝ → ℝ))
    (prev : ℕ) (rest : List ℕ) (acc : ℝ) : Except String ℝ :=
  match rest with
  | [] => .ok acc
  | b :: bs =>
    match get_travel_time locations prev b rounding with
    | .error e => .error e
    | .ok t => legsAux locations rounding b bs (acc + t)

/-- The timeline merge of evaluator.py, lines 115-124: given the previous
production finish and vehicle return times, the production duration of the
batch, the already computed delay slack and the full round-trip time, return
the next pair (production finish, vehicle return). -/
def mergeStep (currP currT pTime maxDelay tFull : ℝ) : ℝ × ℝ :=
  if currT ≤ currP + pTime then
    (currP + pTime, currP + pTime + tFull)
  else
    (max (currP + pTime) (currT - maxDelay), currT + tFull)

/-- The body of the batch loop of evaluate (evaluator.py, lines 95-132):
demand sum, capacity check, travel times of the outbound legs, lifespan
check on the outbound time, delay slack, return leg, timeline merge.
Returns the next pair (production finish, vehicle return), none for an
infeasibility return, or an error for a raised exception. -/
def processBatch (locations : List Location) (capacity lifespan rate : ℝ)
    (rounding : Option (ℝ → ℝ)) (check : Bool) (plant : ℕ) (batch : List ℕ)
    (currP currT : ℝ) : Except String (Option (ℝ × ℝ)) :=
  match sumDemandsAux locations batch 0 with
  | .error e => .error e
  | .ok pSum =>
    if check = true ∧ capacity + EPS_VALUE ≤ pSum then .ok none
    else
      match batch with
      | [] => .error "IndexError: list index out of range"
      | b0 :: rest =>
        match get_travel_time locations plant b0 rounding with
        | .error e => .error e
        | .ok t0 =>
          match legsAux locations rounding b0 rest t0 with
          | .error e => .error e
          | .ok tOut =>
            if check = true ∧ lifespan + EPS_VALUE ≤ tOut then .ok none
            else
              match get_travel_time locations
                  ((b0 :: rest).getLast (List.cons_ne_nil b0 rest)) plant rounding with
              | .error e => .error e
              | .ok tRet =>
                .ok (some (mergeStep currP currT (pSum / rate)
                  (max 0 (lifespan - tOut)) (tOut + tRet)))

/-- The batch loop of evaluate (evaluator.py, lines 94-132) for one plant:
processes the batches of the route in order, threading the pair
(production finish, vehicle return), and returns the final vehicle return
time of the route. -/
def simulateRoute (locations : List Location) (capacity lifespan rate : ℝ)
    (rounding : Option (ℝ → ℝ)) (check : Bool) (plant : ℕ)
    (route : List (List ℕ)) (currP currT : ℝ) : Except String (Option ℝ) :=
  match route with
  | [] => .ok (some currT)
  | batch :: batches =>
    match processBatch locations capacity lifespan rate rounding check plant
        batch currP currT with
    | .error e => .error e
    | .ok none => .ok none
    | .ok (some (p, t)) =>
      simulateRoute locations capacity lifespan rate rounding check plant
        batches p t

/-- The plant loop of evaluate (evaluator.py, lines 84-134): simulates the
route of each plant in order, starting each route from the state (0, 0),
and accumulates the running maximum of the route finish times. -/
def evalPlants (locations : List Location) (capacity lifespan rate : ℝ)
    (rounding : Option (ℝ → ℝ)) (check : Bool) (plant : ℕ)
    (routes : List (List (List ℕ))) (makespan : ℝ) : Except String (Option ℝ) :=
  match routes with
  | [] => .ok (some makespan)
  | route :: rest =>
    match simulateRoute locations capacity lifespan rate rounding check plant
        route 0 0 with
    | .error e => .error e
    | .ok none => .ok none
    | .ok (some tFin) =>
      evalPlants locations capacity lifespan rate rounding check (plant + 1)
        rest (max makespan tFin)

/-- The coverage feasibility check of evaluate (evaluator.py, lines 66-82):
flattens all batches of all routes into the list of visited customers,
sorts it, and requires that its length equals the number of customers of
the instance and that the i-th sorted entry equals i + nplants. -/
def checkCoverage (locations : List Location)
    (solution : List (List (List ℕ))) : Bool :=
  let nplants := solution.length
  let sortedv := (solution.flatten.flatten).insertionSort (· ≤ ·)
  decide ((sortedv.length : ℤ) = (locations.length : ℤ) - (nplants : ℤ)) &&
    (List.range sortedv.length).all (fun i => decide (sortedv.getD i 0 = i + nplants))

/-- Embedding of evaluate (evaluator.py, lines 44-139).  The result
Except.ok (some m) models a returned makespan m, Except.ok none models the
returned infeasibility sentinel INF_RETURN, and Except.error models a
raised exception. -/
def evaluate (locations : List Location) (capacity lifespan rate : ℝ)
    (solution : List (List (List ℕ))) (rounding : Option (ℝ → ℝ))
    (check_feasibility : Bool) : Except String (Option ℝ) :=
  if check_feasibility = true ∧ checkCoverage locations solution = false then
    .ok none
  else
    evalPlants locations capacity lifespan rate rounding check_feasibility 0
      solution 0

/-- The list of per-plant route finish times, each route simulated
independently from the state (0, 0), in plant order. -/
def routeFinishList (locations : List Location) (capacity lifespan rate : ℝ)
    (rounding : Option (ℝ → ℝ)) (check : Bool) (plant : ℕ)
    (routes : List (List (List ℕ))) : Except String (Option (List ℝ)) :=
  match routes with
  | [] => .ok (some [])
  | route :: rest =>
    match simulateRoute locations capacity lifespan rate rounding check plant
        route 0 0 with
    | .error e => .error e
    | .ok none => .ok none
    | .ok (some t) =>
      match routeFinishList locations capacity lifespan rate rounding check
          (plant + 1) rest with
      | .error e => .error e
      | .ok none => .ok none
      | .ok (some ts) => .ok (some (t :: ts))

/-- The timeline merge rule exactly as the specification states it, in
terms of the outbound time and the return leg: earliest production finish,
delay slack max(0, B - t_out), full round-trip time t_out + t_ret, and the
two cases on whether the vehicle is back before production finishes. -/
def specMerge (currP currT pTime tOut tRet lifespan : ℝ) : ℝ × ℝ :=
  let earliestP := currP + pTime
  let maxDelay := max 0 (lifespan - tOut)
  let tFull := tOut + tRet
  if currT ≤ earliestP then (earliestP, earliestP + tFull)
  else (max earliestP (currT - maxDelay), currT + tFull)

/-- Does an evaluation result denote the infeasibility sentinel INF_RETURN? -/
def isInfeasible : Except String (Option ℝ) → Bool
  | .ok none => true
  | _ => false

/-- Does an evaluation result denote a numeric makespan? -/
def isValue : Except String (Option ℝ) → Bool
  | .ok (some _) => true
  | _ => false

/-- Does an evaluation result denote a raised exception? -/
def isFault : Except String (Option ℝ) → Bool
  | .error _ => true
  | _ => false

/-- All demands recorded in the instance are non-negative (the data-model
invariant of the specification). -/
def demandsNonneg (locations : List Location) : Prop :=
  ∀ l ∈ locations, ∀ d : ℝ, l.demand = some d → 0 ≤ d

/-- Refinement order on batch results, used to compare two evaluator runs:
identical faults, identical infeasibility, and componentwise ordered
successor states. -/
def stepLE : Except String (Option (ℝ × ℝ)) → Except String (Option (ℝ × ℝ)) → Prop
  | .ok (some (q2, u2)), .ok (some (q1, u1)) => q2 ≤ q1 ∧ u2 ≤ u1
  | .error e2, .error e1 => e2 = e1
  | .ok none, .ok none => True
  | _, _ => False

/-- Refinement order on route or evaluation results: identical faults,
identical infeasibility, and ordered numeric values. -/
def finLE : Except String (Option ℝ) → Except String (Option ℝ) → Prop
  | .ok (some x2), .ok (some x1) => x2 ≤ x1
  | .error e2, .error e1 => e2 = e1
  | .ok none, .ok none => True
  | _, _ => False

end

/-! ## General helper lemmas about the embedded evaluator -/

/-- Unfolding of processBatch on a non-empty batch when neither the capacity
check nor the lifespan check fires: the result is the timeline merge applied
to the production duration, the delay slack and the full round-trip time. -/
theorem processBatch_ok (locations : List Location) (capacity lifespan rate : ℝ)
    (rounding : Option (ℝ → ℝ)) (check : Bool) (plant b0 : ℕ) (rest : List ℕ)
    (currP currT pSum t0 tOut tRet : ℝ)
    (hsum : sumDemandsAux locations (b0 :: rest) 0 = .ok pSum)
    (hcap : check = true → ¬ capacity + EPS_VALUE ≤ pSum)
    (ht0 : get_travel_time locations plant b0 rounding = .ok t0)
    (hlegs : legsAux locations rounding b0 rest t0 = .ok tOut)
    (hlife : check = true → ¬ lifespan + EPS_VALUE ≤ tOut)
    (hret : get_travel_time locations ((b0 :: rest).getLast (List.cons_ne_nil b0 rest))
      plant rounding = .ok tRet) :
    processBatch locations capacity lifespan rate rounding check plant (b0 :: rest) currP currT
      = .ok (some (mergeStep currP currT (pSum / rate) (max 0 (lifespan - tOut)) (tOut + tRet))) := by
  unfold processBatch
  simp only [hsum]
  rw [if_neg (fun h => hcap h.1 h.2)]
  simp only [ht0, hlegs]
  rw [if_neg (fun h => hlife h.1 h.2)]
  simp only [hret]

/-- Unfolding of processBatch when the capacity check fires: the demand sum
meets or exceeds capacity + EPS_VALUE, so the batch is reported infeasible. -/
theorem processBatch_capFail (locations : List Location) (capacity lifespan rate : ℝ)
    (rounding : Option (ℝ → ℝ)) (plant : ℕ) (batch : List ℕ) (currP currT pSum : ℝ)
    (hsum : sumDemandsAux locations batch 0 = .ok pSum)
    (hcap : capacity + EPS_VALUE ≤ pSum) :
    processBatch locations capacity lifespan rate rounding true plant batch currP currT
      = .ok none := by
  unfold processBatch
  simp only [hsum]
  rw [if_pos ⟨by trivial, hcap⟩]

/-- Unfolding of processBatch when the capacity check passes but the lifespan
check fires on the outbound travel time. -/
theorem processBatch_lifeFail (locations : List Location) (capacity lifespan rate : ℝ)
    (rounding : Option (ℝ → ℝ)) (plant b0 : ℕ) (rest : List ℕ)
    (currP currT pSum t0 tOut : ℝ)
    (hsum : sumDemandsAux locations (b0 :: rest) 0 = .ok pSum)
    (hcap : ¬ capacity + EPS_VALUE ≤ pSum)
    (ht0 : get_travel_time locations plant b0 rounding = .ok t0)
    (hlegs : legsAux locations rounding b0 rest t0 = .ok tOut)
    (hlife : lifespan + EPS_VALUE ≤ tOut) :
    processBatch locations capacity lifespan rate rounding true plant (b0 :: rest) currP currT
      = .ok none := by
  unfold processBatch
  simp only [hsum]
  rw [if_neg (fun h => hcap h.2)]
  simp only [ht0, hlegs]
  rw [if_pos ⟨by trivial, hlife⟩]

/-- Unfolding of get_travel_time on valid inputs: both indices in range and
both locations carrying coordinates. -/
theorem get_travel_time_ok (locations : List Location) (a b : ℕ)
    (rounding : Option (ℝ → ℝ)) (xa ya xb yb : ℝ)
    (ha : a < locations.length) (hb : b < locations.length)
    (hxa : (locations.getD a default).x = some xa)
    (hya : (locations.getD a default).y = some ya)
    (hxb : (locations.getD b default).x = some xb)
    (hyb : (locations.getD b default).y = some yb) :
    get_travel_time locations a b rounding
      = .ok (applyRounding rounding (Real.sqrt ((xa - xb) ^ 2 + (ya - yb) ^ 2))) := by
  unfold get_travel_time
  rw [if_pos ha, if_pos hb, hxa, hya, hxb, hyb]

/-- Travel time between two locations stored with identical coordinates is
zero when no rounding function is supplied. -/
theorem get_travel_time_same (locations : List Location) (a b : ℕ) (x y : ℝ)
    (ha : a < locations.length) (hb : b < locations.length)
    (hxa : (locations.getD a default).x = some x)
    (hya : (locations.getD a default).y = some y)
    (hxb : (locations.getD b default).x = some x)
    (hyb : (locations.getD b default).y = some y) :
    get_travel_time locations a b none = .ok 0 := by
  rw [get_travel_time_ok locations a b none x y x y ha hb hxa hya hxb hyb]
  simp [applyRounding]

/-- Coverage check passing lets evaluate fall through to the plant loop. -/
theorem evaluate_cov_pass (locations : List Location) (capacity lifespan rate : ℝ)
    (solution : List (List (List ℕ))) (rounding : Option (ℝ → ℝ)) (check : Bool)
    (h : checkCoverage locations solution = true) :
    evaluate locations capacity lifespan rate solution rounding check
      = evalPlants locations capacity lifespan rate rounding check 0 solution 0 := by
  rw [evaluate, if_neg]
  simp [h]

/-- With the feasibility check disabled evaluate goes straight to the plant
loop. -/
theorem evaluate_nocheck (locations : List Location) (capacity lifespan rate : ℝ)
    (solution : List (List (List ℕ))) (rounding : Option (ℝ → ℝ)) :
    evaluate locations capacity lifespan rate solution rounding false
      = evalPlants locations capacity lifespan rate rounding false 0 solution 0 := by
  rw [evaluate, if_neg]
  simp

/-! ## Claim C1: the per-batch timeline merge follows the two-case rule -/

/-- C1: for every batch processed inside a route, when the preceding checks
do not fire, the next pair of timeline values returned by the batch loop is
exactly the two-case rule of the specification: with earliest production
finish currP + pTime, if currT is at most it then the production finish is
the earliest one and the vehicle returns a full round trip later, otherwise
the vehicle returns at currT plus the round trip and the recorded production
finish is max(earliest, currT - max_delay), with max_delay = max(0, B - tOut)
and the round trip tOut + tRet. -/
theorem claim_C1_timeline_merge (locations : List Location)
    (capacity lifespan rate : ℝ) (rounding : Option (ℝ → ℝ)) (check : Bool)
    (plant b0 : ℕ) (rest : List ℕ) (currP currT pSum t0 tOut tRet : ℝ)
    (hsum : sumDemandsAux locations (b0 :: rest) 0 = .ok pSum)
    (hcap : check = true → ¬ capacity + EPS_VALUE ≤ pSum)
    (ht0 : get_travel_time locations plant b0 rounding = .ok t0)
    (hlegs : legsAux locations rounding b0 rest t0 = .ok tOut)
    (hlife : check = true → ¬ lifespan + EPS_VALUE ≤ tOut)
    (hret : get_travel_time locations ((b0 :: rest).getLast (List.cons_ne_nil b0 rest))
      plant rounding = .ok tRet) :
    processBatch locations capacity lifespan rate rounding check plant (b0 :: rest) currP currT
      = .ok (some (specMerge currP currT (pSum / rate) tOut tRet lifespan)) := by
  rw [processBatch_ok locations capacity lifespan rate rounding check plant b0 rest
    currP currT pSum t0 tOut tRet hsum hcap ht0 hlegs hlife hret]
  rfl

/-- Witness for C1 at a concrete input: one plant and one customer at the
same point with demand 2, capacity 10, lifespan 7, rate 1. -/
theorem claim_C1_timeline_merge_witness :
    processBatch [⟨some 0, some 0, some 0⟩, ⟨some 0, some 0, some 2⟩] 10 7 1 none true
      0 [1] 0 0 = .ok (some (specMerge 0 0 (2 / 1) 0 0 7)) := by
  have hsum : sumDemandsAux [⟨some 0, some 0, some 0⟩, ⟨some 0, some 0, some 2⟩] [1] 0
      = .ok 2 := by
    simp [sumDemandsAux, getDemand, getLoc, List.get?]
  have ht0 : get_travel_time [⟨some 0, some 0, some 0⟩, ⟨some 0, some 0, some 2⟩] 0 1 none
      = .ok 0 :=
    get_travel_time_same _ 0 1 0 0 (by norm_num) (by norm_num) rfl rfl rfl rfl
  have ht1 : get_travel_time [⟨some 0, some 0, some 0⟩, ⟨some 0, some 0, some 2⟩] 1 0 none
      = .ok 0 :=
    get_travel_time_same _ 1 0 0 0 (by norm_num) (by norm_num) rfl rfl rfl rfl
  exact claim_C1_timeline_merge [⟨some 0, some 0, some 0⟩, ⟨some 0, some 0, some 2⟩]
    10 7 1 none true 0 1 [] 0 0 2 0 0 0 hsum
    (fun _ => by norm_num [EPS_VALUE]) ht0 rfl (fun _ => by norm_num [EPS_VALUE]) ht1

/-! ## Claim C5: the lifespan check sees the outbound time only -/

/-- C5: the lifespan feasibility check of the batch loop is applied to the
outbound travel time tOut alone, the value accumulated from the leg plant to
first customer and the consecutive customer legs; when it fires the whole
batch is reported infeasible before the return leg is even computed, and when
it passes the return leg is added to tOut to form the full round-trip time
used in the timeline merge. -/
theorem claim_C5_lifespan_outbound_only (locations : List Location)
    (capacity lifespan rate : ℝ) (rounding : Option (ℝ → ℝ)) (plant b0 : ℕ)
    (rest : List ℕ) (currP currT pSum t0 tOut : ℝ)
    (hsum : sumDemandsAux locations (b0 :: rest) 0 = .ok pSum)
    (hcap : ¬ capacity + EPS_VALUE ≤ pSum)
    (ht0 : get_travel_time locations plant b0 rounding = .ok t0)
    (hlegs : legsAux locations rounding b0 rest t0 = .ok tOut) :
    (lifespan + EPS_VALUE ≤ tOut →
      processBatch locations capacity lifespan rate rounding true plant (b0 :: rest)
        currP currT = .ok none) ∧
    (¬ lifespan + EPS_VALUE ≤ tOut → ∀ (check : Bool) (tRet : ℝ),
      get_travel_time locations ((b0 :: rest).getLast (List.cons_ne_nil b0 rest))
        plant rounding = .ok tRet →
      processBatch locations capacity lifespan rate rounding check plant (b0 :: rest)
        currP currT
        = .ok (some (mergeStep currP currT (pSum / rate) (max 0 (lifespan - tOut))
            (tOut + tRet)))) := by
  constructor
  · intro hlife
    exact processBatch_lifeFail locations capacity lifespan rate rounding plant b0 rest
      currP currT pSum t0 tOut hsum hcap ht0 hlegs hlife
  · intro hlife check tRet hret
    exact processBatch_ok locations capacity lifespan rate rounding check plant b0 rest
      currP currT pSum t0 tOut tRet hsum (fun _ => hcap) ht0 hlegs (fun _ => hlife) hret

/-- Witness for C5 at a concrete input: the customer sits at distance 5 from
the plant and the lifespan is 1, so the outbound check fires and the batch is
reported infeasible. -/
theorem claim_C5_lifespan_outbound_only_witness :
    processBatch [⟨some 0, some 0, some 0⟩, ⟨some 3, some 4, some 2⟩] 10 1 1 none true
      0 [1] 0 0 = .ok none := by
  have hsum : sumDemandsAux [⟨some 0, some 0, some 0⟩, ⟨some 3, some 4, some 2⟩] [1] 0
      = .ok 2 := by
    simp [sumDemandsAux, getDemand, getLoc, List.get?]
  have ht0 : get_travel_time [⟨some 0, some 0, some 0⟩, ⟨some 3, some 4, some 2⟩] 0 1 none
      = .ok 5 := by
    rw [get_travel_time_ok [⟨some 0, some 0, some 0⟩, ⟨some 3, some 4, some 2⟩] 0 1 none 0 0 3 4 (by norm_num) (by norm_num) rfl rfl rfl rfl]
    simp only [applyRounding]
    norm_num
    rw [show (25:ℝ) = 5 ^ 2 by norm_num]
    exact Real.sqrt_sq (by norm_num)
  exact (claim_C5_lifespan_outbound_only [⟨some 0, some 0, some 0⟩, ⟨some 3, some 4, some 2⟩]
    10 1 1 none 0 1 [] 0 0 2 5 5 hsum (by norm_num [EPS_VALUE]) ht0 rfl).1
    (by norm_num [EPS_VALUE])

/-- Evaluation of a single-plant, single-batch solution when the batch
succeeds with final state (p, t). -/
theorem evalPlants_single_some (locations : List Location) (capacity lifespan rate : ℝ)
    (rounding : Option (ℝ → ℝ)) (check : Bool) (b : List ℕ) (p t : ℝ)
    (h : processBatch locations capacity lifespan rate rounding check 0 b 0 0
      = .ok (some (p, t))) :
    evalPlants locations capacity lifespan rate rounding check 0 [[b]] 0
      = .ok (some (max 0 t)) := by
  simp only [evalPlants, simulateRoute, h]

/-- Evaluation of a single-plant, single-batch solution when the batch is
reported infeasible. -/
theorem evalPlants_single_none (locations : List Location) (capacity lifespan rate : ℝ)
    (rounding : Option (ℝ → ℝ)) (check : Bool) (b : List ℕ)
    (h : processBatch locations capacity lifespan rate rounding check 0 b 0 0
      = .ok none) :
    evalPlants locations capacity lifespan rate rounding check 0 [[b]] 0 = .ok none := by
  simp only [evalPlants, simulateRoute, h]

/-! ## Claim C4: epsilon boundary behaviour of the capacity and lifespan checks -/

/-- C4: both feasibility checks use the threshold value at least
limit + EPS_VALUE.  On a one-plant, one-customer instance: a batch whose
demand equals the capacity is feasible while demand capacity + EPS_VALUE is
infeasible, and an outbound travel time equal to the lifespan is feasible
while lifespan + EPS_VALUE is infeasible. -/
theorem claim_C4_eps_boundaries (Q B : ℝ) (hQ : 0 ≤ Q) (hB : 0 ≤ B) :
    evaluate [⟨some 0, some 0, some 0⟩, ⟨some 0, some 0, some Q⟩] Q B 1 [[[1]]] none true
      = .ok (some Q) ∧
    evaluate [⟨some 0, some 0, some 0⟩, ⟨some 0, some 0, some (Q + EPS_VALUE)⟩] Q B 1
      [[[1]]] none true = .ok none ∧
    evaluate [⟨some 0, some 0, some 0⟩, ⟨some B, some 0, some Q⟩] Q B 1 [[[1]]] none true
      = .ok (some (Q + 2 * B)) ∧
    evaluate [⟨some 0, some 0, some 0⟩, ⟨some (B + EPS_VALUE), some 0, some Q⟩] Q B 1
      [[[1]]] none true = .ok none := by
  refine ⟨?_, ?_, ?_, ?_⟩
  · have hcov : checkCoverage [⟨some 0, some 0, some 0⟩, ⟨some 0, some 0, some Q⟩]
        [[[1]]] = true := rfl
    have hsum : sumDemandsAux [⟨some 0, some 0, some 0⟩, ⟨some 0, some 0, some Q⟩] [1] 0
        = .ok Q := by
      simp [sumDemandsAux, getDemand, getLoc, List.get?]
    have ht0 : get_travel_time [⟨some 0, some 0, some 0⟩, ⟨some 0, some 0, some Q⟩]
        0 1 none = .ok 0 :=
      get_travel_time_same _ 0 1 0 0 (by norm_num) (by norm_num) rfl rfl rfl rfl
    have ht1 : get_travel_time [⟨some 0, some 0, some 0⟩, ⟨some 0, some 0, some Q⟩]
        1 0 none = .ok 0 :=
      get_travel_time_same _ 1 0 0 0 (by norm_num) (by norm_num) rfl rfl rfl rfl
    have hpb := processBatch_ok [⟨some 0, some 0, some 0⟩, ⟨some 0, some 0, some Q⟩]
      Q B 1 none true 0 1 [] 0 0 Q 0 0 0 hsum
      (fun _ => by rw [EPS_VALUE]; intro hc; linarith) ht0 rfl
      (fun _ => by rw [EPS_VALUE]; intro hc; linarith) ht1
    have hmerge : mergeStep 0 0 (Q / 1) (max 0 (B - 0)) ((0 : ℝ) + 0) = (Q, Q) := by
      rw [mergeStep, if_pos (by rw [div_one]; linarith)]
      norm_num
    rw [evaluate_cov_pass _ _ _ _ _ _ _ hcov,
      evalPlants_single_some _ _ _ _ _ _ _ Q Q (by rw [hpb, hmerge]), max_eq_right hQ]
  · have hcov : checkCoverage
        [⟨some 0, some 0, some 0⟩, ⟨some 0, some 0, some (Q + EPS_VALUE)⟩]
        [[[1]]] = true := rfl
    have hsum : sumDemandsAux
        [⟨some 0, some 0, some 0⟩, ⟨some 0, some 0, some (Q + EPS_VALUE)⟩] [1] 0
        = .ok (Q + EPS_VALUE) := by
      simp [sumDemandsAux, getDemand, getLoc, List.get?]
    rw [evaluate_cov_pass _ _ _ _ _ _ _ hcov,
      evalPlants_single_none _ _ _ _ _ _ _
        (processBatch_capFail _ _ _ _ _ _ _ _ _ _ hsum le_rfl)]
  · have hcov : checkCoverage [⟨some 0, some 0, some 0⟩, ⟨some B, some 0, some Q⟩]
        [[[1]]] = true := rfl
    have hsum : sumDemandsAux [⟨some 0, some 0, some 0⟩, ⟨some B, some 0, some Q⟩] [1] 0
        = .ok Q := by
      simp [sumDemandsAux, getDemand, getLoc, List.get?]
    have ht0 : get_travel_time [⟨some 0, some 0, some 0⟩, ⟨some B, some 0, some Q⟩]
        0 1 none = .ok B := by
      rw [get_travel_time_ok [⟨some 0, some 0, some 0⟩, ⟨some B, some 0, some Q⟩]
        0 1 none 0 0 B 0 (by norm_num) (by norm_num) rfl rfl rfl rfl]
      simp only [applyRounding]
      rw [show ((0 : ℝ) - B) ^ 2 + ((0 : ℝ) - 0) ^ 2 = B ^ 2 by ring, Real.sqrt_sq hB]
    have ht1 : get_travel_time [⟨some 0, some 0, some 0⟩, ⟨some B, some 0, some Q⟩]
        1 0 none = .ok B := by
      rw [get_travel_time_ok [⟨some 0, some 0, some 0⟩, ⟨some B, some 0, some Q⟩]
        1 0 none B 0 0 0 (by norm_num) (by norm_num) rfl rfl rfl rfl]
      simp only [applyRounding]
      rw [show (B - (0 : ℝ)) ^ 2 + ((0 : ℝ) - 0) ^ 2 = B ^ 2 by ring, Real.sqrt_sq hB]
    have hpb := processBatch_ok [⟨some 0, some 0, some 0⟩, ⟨some B, some 0, some Q⟩]
      Q B 1 none true 0 1 [] 0 0 Q B B B hsum
      (fun _ => by rw [EPS_VALUE]; intro hc; linarith) ht0 rfl
      (fun _ => by rw [EPS_VALUE]; intro hc; linarith) ht1
    have hmerge : mergeStep 0 0 (Q / 1) (max 0 (B - B)) (B + B) = (Q, Q + 2 * B) := by
      rw [mergeStep, if_pos (by rw [div_one]; linarith)]
      rw [Prod.ext_iff]
      constructor
      · norm_num
      · simp only
        rw [div_one]
        ring
    rw [evaluate_cov_pass _ _ _ _ _ _ _ hcov,
      evalPlants_single_some _ _ _ _ _ _ _ Q (Q + 2 * B) (by rw [hpb, hmerge]),
      max_eq_right (by linarith)]
  · have hcov : checkCoverage
        [⟨some 0, some 0, some 0⟩, ⟨some (B + EPS_VALUE), some 0, some Q⟩]
        [[[1]]] = true := rfl
    have hsum : sumDemandsAux
        [⟨some 0, some 0, some 0⟩, ⟨some (B + EPS_VALUE), some 0, some Q⟩] [1] 0
        = .ok Q := by
      simp [sumDemandsAux, getDemand, getLoc, List.get?]
    have hBE : (0 : ℝ) ≤ B + EPS_VALUE := by rw [EPS_VALUE]; linarith
    have ht0 : get_travel_time
        [⟨some 0, some 0, some 0⟩, ⟨some (B + EPS_VALUE), some 0, some Q⟩]
        0 1 none = .ok (B + EPS_VALUE) := by
      rw [get_travel_time_ok
        [⟨some 0, some 0, some 0⟩, ⟨some (B + EPS_VALUE), some 0, some Q⟩]
        0 1 none 0 0 (B + EPS_VALUE) 0 (by norm_num) (by norm_num) rfl rfl rfl rfl]
      simp only [applyRounding]
      rw [show ((0 : ℝ) - (B + EPS_VALUE)) ^ 2 + ((0 : ℝ) - 0) ^ 2 = (B + EPS_VALUE) ^ 2
        by ring, Real.sqrt_sq hBE]
    rw [evaluate_cov_pass _ _ _ _ _ _ _ hcov,
      evalPlants_single_none _ _ _ _ _ _ _
        (processBatch_lifeFail _ _ _ _ _ _ _ _ _ _ _ _ _ hsum
          (by rw [EPS_VALUE]; intro hc; linarith) ht0 rfl le_rfl)]

/-- Witness for C4 at the concrete parameters Q = 1, B = 1. -/
theorem claim_C4_eps_boundaries_witness :
    evaluate [⟨some 0, some 0, some 0⟩, ⟨some 0, some 0, some 1⟩] 1 1 1 [[[1]]] none true
      = .ok (some 1) ∧
    evaluate [⟨some 0, some 0, some 0⟩, ⟨some 0, some 0, some (1 + EPS_VALUE)⟩] 1 1 1
      [[[1]]] none true = .ok none ∧
    evaluate [⟨some 0, some 0, some 0⟩, ⟨some 1, some 0, some 1⟩] 1 1 1 [[[1]]] none true
      = .ok (some (1 + 2 * 1)) ∧
    evaluate [⟨some 0, some 0, some 0⟩, ⟨some (1 + EPS_VALUE), some 0, some 1⟩] 1 1 1
      [[[1]]] none true = .ok none :=
  claim_C4_eps_boundaries 1 1 (by norm_num) (by norm_num)

/-! ## Claim C2: behaviour when the feasibility check is disabled -/

/-- With the feasibility check disabled, processBatch never produces the
infeasibility outcome: both guarded returns require check to be true. -/
theorem processBatch_false_ne_none (locations : List Location)
    (capacity lifespan rate : ℝ) (rounding : Option (ℝ → ℝ)) (plant : ℕ)
    (batch : List ℕ) (p t : ℝ)
    (h : processBatch locations capacity lifespan rate rounding false plant batch p t
      = .ok none) : False := by
  unfold processBatch at h
  split at h
  · simp at h
  · rw [if_neg fun hc => Bool.false_ne_true hc.1] at h
    split at h
    · simp at h
    · split at h
      · simp at h
      · split at h
        · simp at h
        · rw [if_neg fun hc => Bool.false_ne_true hc.1] at h
          split at h
          · simp at h
          · simp at h

/-- With the feasibility check disabled, a route simulation never produces
the infeasibility outcome. -/
theorem simulateRoute_false_ne_none (locations : List Location)
    (capacity lifespan rate : ℝ) (rounding : Option (ℝ → ℝ)) (plant : ℕ)
    (route : List (List ℕ)) :
    ∀ p t : ℝ, simulateRoute locations capacity lifespan rate rounding false plant
      route p t = .ok none → False := by
  induction route with
  | nil =>
    intro p t h
    simp [simulateRoute] at h
  | cons b bs ih =>
    intro p t h
    unfold simulateRoute at h
    cases hpb : processBatch locations capacity lifespan rate rounding false plant b p t with
    | error e => rw [hpb] at h; simp at h
    | ok o =>
      cases o with
      | none => exact processBatch_false_ne_none _ _ _ _ _ _ _ _ _ hpb
      | some pr =>
        obtain ⟨p', t'⟩ := pr
        rw [hpb] at h
        exact ih p' t' (by simpa using h)

/-- With the feasibility check disabled, the plant loop never produces the
infeasibility outcome. -/
theorem evalPlants_false_ne_none (locations : List Location)
    (capacity lifespan rate : ℝ) (rounding : Option (ℝ → ℝ))
    (routes : List (List (List ℕ))) :
    ∀ (plant : ℕ) (acc : ℝ), evalPlants locations capacity lifespan rate rounding false
      plant routes acc = .ok none → False := by
  induction routes with
  | nil =>
    intro plant acc h
    simp [evalPlants] at h
  | cons r rs ih =>
    intro plant acc h
    unfold evalPlants at h
    cases hsr : simulateRoute locations capacity lifespan rate rounding false plant r 0 0 with
    | error e => rw [hsr] at h; simp at h
    | ok o =>
      cases o with
      | none => exact simulateRoute_false_ne_none _ _ _ _ _ _ _ 0 0 hsr
      | some tFin =>
        rw [hsr] at h
        exact ih (plant + 1) (max acc tFin) (by simpa using h)

/-- C2 counterexample: with check_feasibility disabled, a solution whose only
batch has demand 1000 against capacity 10 is a capacity violation, yet
evaluate returns the numeric makespan 1000 rather than the infeasibility
outcome. -/
theorem claim_C2_counterexample :
    evaluate [⟨some 0, some 0, some 0⟩, ⟨some 0, some 0, some 1000⟩] 10 10 1 [[[1]]]
      none false = .ok (some 1000) ∧ (10 : ℝ) + EPS_VALUE ≤ 1000 := by
  constructor
  · have hsum : sumDemandsAux [⟨some 0, some 0, some 0⟩, ⟨some 0, some 0, some 1000⟩]
        [1] 0 = .ok 1000 := by
      simp [sumDemandsAux, getDemand, getLoc, List.get?]
    have ht0 : get_travel_time [⟨some 0, some 0, some 0⟩, ⟨some 0, some 0, some 1000⟩]
        0 1 none = .ok 0 :=
      get_travel_time_same _ 0 1 0 0 (by norm_num) (by norm_num) rfl rfl rfl rfl
    have ht1 : get_travel_time [⟨some 0, some 0, some 0⟩, ⟨some 0, some 0, some 1000⟩]
        1 0 none = .ok 0 :=
      get_travel_time_same _ 1 0 0 0 (by norm_num) (by norm_num) rfl rfl rfl rfl
    have hpb := processBatch_ok [⟨some 0, some 0, some 0⟩, ⟨some 0, some 0, some 1000⟩]
      10 10 1 none false 0 1 [] 0 0 1000 0 0 0 hsum
      (fun hc => absurd hc Bool.false_ne_true) ht0 rfl
      (fun hc => absurd hc Bool.false_ne_true) ht1
    have hmerge : mergeStep 0 0 (1000 / 1) (max 0 (10 - 0)) ((0 : ℝ) + 0)
        = (1000, 1000) := by
      rw [mergeStep, if_pos (by norm_num)]
      norm_num
    rw [evaluate_nocheck,
      evalPlants_single_some _ _ _ _ _ _ _ 1000 1000 (by rw [hpb, hmerge])]
    norm_num
  · rw [EPS_VALUE]
    norm_num

/-- C2 amended: when check_feasibility is false, evaluate never returns the
infeasibility outcome at all; per-batch capacity and lifespan violations are
simply not checked, and evaluate either returns a numeric makespan or aborts
with an exception. -/
theorem claim_C2_amended (locations : List Location) (capacity lifespan rate : ℝ)
    (solution : List (List (List ℕ))) (rounding : Option (ℝ → ℝ)) :
    isInfeasible (evaluate locations capacity lifespan rate solution rounding false)
      = false := by
  cases hres : evaluate locations capacity lifespan rate solution rounding false with
  | error e => rfl
  | ok o =>
    cases o with
    | none =>
      rw [evaluate_nocheck] at hres
      exact (evalPlants_false_ne_none _ _ _ _ _ _ 0 0 hres).elim
    | some m => rfl

/-! ## Claim C10: empty batches -/

/-- An empty batch never yields a successor state: the batch loop fails on
batch[0] before any timeline update (or is cut short by the capacity check). -/
theorem processBatch_nil_ne_some (locations : List Location)
    (capacity lifespan rate : ℝ) (rounding : Option (ℝ → ℝ)) (check : Bool)
    (plant : ℕ) (p t : ℝ) (pr : ℝ × ℝ)
    (h : processBatch locations capacity lifespan rate rounding check plant [] p t
      = .ok (some pr)) : False := by
  unfold processBatch at h
  simp only [sumDemandsAux] at h
  split at h <;> simp at h

/-- With the feasibility check disabled, an empty batch always raises the
IndexError of batch[0]. -/
theorem processBatch_nil_false (locations : List Location)
    (capacity lifespan rate : ℝ) (rounding : Option (ℝ → ℝ)) (plant : ℕ) (p t : ℝ) :
    processBatch locations capacity lifespan rate rounding false plant [] p t
      = .error "IndexError: list index out of range" := by
  unfold processBatch
  simp only [sumDemandsAux]
  rw [if_neg fun hc => Bool.false_ne_true hc.1]

/-- A route containing an empty batch never simulates to completion. -/
theorem simulateRoute_mem_ne_some (locations : List Location)
    (capacity lifespan rate : ℝ) (rounding : Option (ℝ → ℝ)) (check : Bool)
    (plant : ℕ) (route : List (List ℕ)) (hmem : [] ∈ route) :
    ∀ (p t T : ℝ), simulateRoute locations capacity lifespan rate rounding check plant
      route p t = .ok (some T) → False := by
  induction route with
  | nil => exact absurd hmem (List.not_mem_nil _)
  | cons b bs ih =>
    intro p t T h
    unfold simulateRoute at h
    cases hpb : processBatch locations capacity lifespan rate rounding check plant b p t with
    | error e => rw [hpb] at h; simp at h
    | ok o =>
      cases o with
      | none => rw [hpb] at h; simp at h
      | some pr =>
        obtain ⟨p', t'⟩ := pr
        rw [hpb] at h
        rcases List.mem_cons.mp hmem with hb | hbs
        · exact processBatch_nil_ne_some _ _ _ _ _ _ _ _ _ _ (hb ▸ hpb)
        · exact ih hbs p' t' T (by simpa using h)

/-- A solution containing an empty batch never evaluates to a numeric
makespan through the plant loop. -/
theorem evalPlants_mem_ne_some (locations : List Location)
    (capacity lifespan rate : ℝ) (rounding : Option (ℝ → ℝ)) (check : Bool)
    (routes : List (List (List ℕ))) (hmem : [] ∈ routes.flatten) :
    ∀ (plant : ℕ) (acc m : ℝ), evalPlants locations capacity lifespan rate rounding check
      plant routes acc = .ok (some m) → False := by
  induction routes with
  | nil => simp at hmem
  | cons r rs ih =>
    intro plant acc m h
    unfold evalPlants at h
    cases hsr : simulateRoute locations capacity lifespan rate rounding check plant r 0 0 with
    | error e => rw [hsr] at h; simp at h
    | ok o =>
      cases o with
      | none => rw [hsr] at h; simp at h
      | some tFin =>
        rw [hsr] at h
        obtain ⟨route', hroute', hmemr⟩ := List.mem_flatten.mp hmem
        rcases List.mem_cons.mp hroute' with heq | hin
        · exact simulateRoute_mem_ne_some _ _ _ _ _ _ _ _ (heq ▸ hmemr) 0 0 tFin hsr
        · exact ih (List.mem_flatten.mpr ⟨route', hin, hmemr⟩) (plant + 1)
            (max acc tFin) m (by simpa using h)

/-- With the feasibility check disabled, a route containing an empty batch
always raises an exception. -/
theorem simulateRoute_false_mem_fault (locations : List Location)
    (capacity lifespan rate : ℝ) (rounding : Option (ℝ → ℝ)) (plant : ℕ)
    (route : List (List ℕ)) (hmem : [] ∈ route) :
    ∀ p t : ℝ, ∃ e, simulateRoute locations capacity lifespan rate rounding false plant
      route p t = .error e := by
  induction route with
  | nil => exact absurd hmem (List.not_mem_nil _)
  | cons b bs ih =>
    intro p t
    cases hpb : processBatch locations capacity lifespan rate rounding false plant b p t with
    | error e =>
      refine ⟨e, ?_⟩
      unfold simulateRoute
      rw [hpb]
    | ok o =>
      cases o with
      | none => exact (processBatch_false_ne_none _ _ _ _ _ _ _ _ _ hpb).elim
      | some pr =>
        obtain ⟨p', t'⟩ := pr
        rcases List.mem_cons.mp hmem with hb | hbs
        · rw [← hb, processBatch_nil_false] at hpb
          exact absurd hpb (by simp)
        · obtain ⟨e, he⟩ := ih hbs p' t'
          refine ⟨e, ?_⟩
          unfold simulateRoute
          rw [hpb]
          exact he

/-- With the feasibility check disabled, a solution containing an empty batch
always raises an exception through the plant loop. -/
theorem evalPlants_false_mem_fault (locations : List Location)
    (capacity lifespan rate : ℝ) (rounding : Option (ℝ → ℝ))
    (routes : List (List (List ℕ))) (hmem : [] ∈ routes.flatten) :
    ∀ (plant : ℕ) (acc : ℝ), ∃ e, evalPlants locations capacity lifespan rate rounding
      false plant routes acc = .error e := by
  induction routes with
  | nil => simp at hmem
  | cons r rs ih =>
    intro plant acc
    by_cases hr : [] ∈ r
    · obtain ⟨e, he⟩ := simulateRoute_false_mem_fault _ _ _ _ _ plant r hr 0 0
      refine ⟨e, ?_⟩
      unfold evalPlants
      rw [he]
    · have hrs : [] ∈ rs.flatten := by
        obtain ⟨route', hroute', hmemr⟩ := List.mem_flatten.mp hmem
        rcases List.mem_cons.mp hroute' with heq | hin
        · exact absurd (heq ▸ hmemr) hr
        · exact List.mem_flatten.mpr ⟨route', hin, hmemr⟩
      cases hsr : simulateRoute locations capacity lifespan rate rounding false plant
          r 0 0 with
      | error e =>
        refine ⟨e, ?_⟩
        unfold evalPlants
        rw [hsr]
      | ok o =>
        cases o with
        | none => exact (simulateRoute_false_ne_none _ _ _ _ _ _ _ 0 0 hsr).elim
        | some tFin =>
          obtain ⟨e, he⟩ := ih hrs (plant + 1) (max acc tFin)
          refine ⟨e, ?_⟩
          unfold evalPlants
          rw [hsr]
          exact he

/-- C10 counterexample: a solution containing an empty batch for which the
coverage check passes, yet evaluate returns the infeasibility outcome (the
first route violates capacity before the empty batch is ever reached) rather
than aborting with a fault. -/
theorem claim_C10_counterexample :
    evaluate [⟨some 0, some 0, some 0⟩, ⟨some 0, some 0, some 0⟩,
        ⟨some 0, some 0, some 1000⟩, ⟨some 0, some 0, some 1⟩] 10 10 1
      [[[2, 3]], [[]]] none true = .ok none ∧
    [] ∈ ([[[2, 3]], [[]]] : List (List (List ℕ))).flatten ∧
    checkCoverage [⟨some 0, some 0, some 0⟩, ⟨some 0, some 0, some 0⟩,
        ⟨some 0, some 0, some 1000⟩, ⟨some 0, some 0, some 1⟩] [[[2, 3]], [[]]]
      = true := by
  refine ⟨?_, by decide, by decide⟩
  have hcov : checkCoverage [⟨some 0, some 0, some 0⟩, ⟨some 0, some 0, some 0⟩,
      ⟨some 0, some 0, some 1000⟩, ⟨some 0, some 0, some 1⟩] [[[2, 3]], [[]]] = true := by
    decide
  have hsum : sumDemandsAux [⟨some 0, some 0, some 0⟩, ⟨some 0, some 0, some 0⟩,
      ⟨some 0, some 0, some 1000⟩, ⟨some 0, some 0, some 1⟩] [2, 3] 0 = .ok 1001 := by
    simp [sumDemandsAux, getDemand, getLoc, List.get?]
    norm_num
  have hpb := processBatch_capFail [⟨some 0, some 0, some 0⟩, ⟨some 0, some 0, some 0⟩,
    ⟨some 0, some 0, some 1000⟩, ⟨some 0, some 0, some 1⟩] 10 10 1 none 0 [2, 3] 0 0
    1001 hsum (by rw [EPS_VALUE]; norm_num)
  rw [evaluate_cov_pass _ _ _ _ _ _ _ hcov]
  simp only [evalPlants, simulateRoute, hpb]

/-- C10 amended: a solution containing an empty batch never evaluates to a
numeric makespan; if the simulation reaches the empty batch it aborts with an
exception, which is guaranteed whenever the feasibility check is disabled,
while with the check enabled an earlier batch's infeasibility may still
produce the infeasibility outcome first. -/
theorem claim_C10_amended (locations : List Location) (capacity lifespan rate : ℝ)
    (rounding : Option (ℝ → ℝ)) (solution : List (List (List ℕ)))
    (hmem : [] ∈ solution.flatten) :
    (∀ check : Bool,
      isValue (evaluate locations capacity lifespan rate solution rounding check)
        = false) ∧
    isFault (evaluate locations capacity lifespan rate solution rounding false)
      = true := by
  constructor
  · intro check
    cases hres : evaluate locations capacity lifespan rate solution rounding check with
    | error e => rfl
    | ok o =>
      cases o with
      | none => rfl
      | some m =>
        rw [evaluate] at hres
        split at hres
        · simp at hres
        · exact (evalPlants_mem_ne_some _ _ _ _ _ _ _ hmem 0 0 m hres).elim
  · obtain ⟨e, he⟩ := evalPlants_false_mem_fault locations capacity lifespan rate
      rounding solution hmem 0 0
    rw [evaluate_nocheck, he]
    rfl

/-- Witness for C10 at a concrete input: a single plant whose route consists
of one empty batch. -/
theorem claim_C10_amended_witness :
    (∀ check : Bool,
      isValue (evaluate [⟨some 0, some 0, some 0⟩] 10 10 1 [[[]]] none check)
        = false) ∧
    isFault (evaluate [⟨some 0, some 0, some 0⟩] 10 10 1 [[[]]] none false)
      = true :=
  claim_C10_amended [⟨some 0, some 0, some 0⟩] 10 10 1 none [[[]]] (by decide)

/-! ## Claim C8: single batch, single customer determinism -/

/-- C8: for the instance with one plant at the origin and one customer at
(3, 4) with demand 10, capacity 20, lifespan 100, rate 1 and no rounding,
evaluate returns exactly 20: production 10, outbound 5, return 5. -/
theorem claim_C8_single_customer :
    evaluate [⟨some 0, some 0, some 0⟩, ⟨some 3, some 4, some 10⟩] 20 100 1
      [[[1]]] none true = .ok (some 20) := by
  have hcov : checkCoverage [⟨some 0, some 0, some 0⟩, ⟨some 3, some 4, some 10⟩]
      [[[1]]] = true := rfl
  have hsum : sumDemandsAux [⟨some 0, some 0, some 0⟩, ⟨some 3, some 4, some 10⟩] [1] 0
      = .ok 10 := by
    simp [sumDemandsAux, getDemand, getLoc, List.get?]
  have ht0 : get_travel_time [⟨some 0, some 0, some 0⟩, ⟨some 3, some 4, some 10⟩] 0 1 none
      = .ok 5 := by
    rw [get_travel_time_ok [⟨some 0, some 0, some 0⟩, ⟨some 3, some 4, some 10⟩] 0 1 none 0 0 3 4 (by norm_num) (by norm_num) rfl rfl rfl rfl]
    simp only [applyRounding]
    norm_num
    rw [show (25:ℝ) = 5 ^ 2 by norm_num]
    exact Real.sqrt_sq (by norm_num)
  have ht1 : get_travel_time [⟨some 0, some 0, some 0⟩, ⟨some 3, some 4, some 10⟩] 1 0 none
      = .ok 5 := by
    rw [get_travel_time_ok [⟨some 0, some 0, some 0⟩, ⟨some 3, some 4, some 10⟩] 1 0 none 3 4 0 0 (by norm_num) (by norm_num) rfl rfl rfl rfl]
    simp only [applyRounding]
    norm_num
    rw [show (25:ℝ) = 5 ^ 2 by norm_num]
    exact Real.sqrt_sq (by norm_num)
  have hpb := processBatch_ok [⟨some 0, some 0, some 0⟩, ⟨some 3, some 4, some 10⟩]
    20 100 1 none true 0 1 [] 0 0 10 5 5 5 hsum
    (fun _ => by norm_num [EPS_VALUE]) ht0 rfl (fun _ => by norm_num [EPS_VALUE]) ht1
  have hmerge : mergeStep 0 0 (10 / 1) (max 0 (100 - 5)) (5 + 5) = ((10 : ℝ), (20 : ℝ)) := by
    rw [mergeStep, if_pos (by norm_num)]
    norm_num
  rw [evaluate_cov_pass _ _ _ _ _ _ _ hcov]
  simp only [evalPlants, simulateRoute, hpb, hmerge]
  norm_num

/-! ## Claim C3: the coverage check characterises exact customer coverage -/

/-- Arithmetic progressions with step one are sorted. -/
theorem sorted_le_range' (s n : ℕ) : List.Sorted (· ≤ ·) (List.range' s n) := by
  have h := List.pairwise_lt_range' s n 1 (by omega)
  have hlt : List.Sorted (· < ·) (List.range' s n) := by
    simpa [List.Sorted] using h
  exact hlt.le_of_lt

/-- C3: for a solution with one route per plant of the instance, the coverage
check passes exactly when the multiset of customer indices over all batches
of all routes equals the customer range nplants, ..., len - 1 with every
index appearing exactly once; whenever it fails, evaluate with the
feasibility check enabled returns the infeasibility outcome. -/
theorem claim_C3_coverage (locations : List Location) (solution : List (List (List ℕ)))
    (hnp : solution.length ≤ locations.length) :
    (checkCoverage locations solution = true ↔
      (↑(solution.flatten.flatten) : Multiset ℕ) =
        ↑(List.range' solution.length (locations.length - solution.length))) ∧
    (checkCoverage locations solution = false →
      ∀ (capacity lifespan rate : ℝ) (rounding : Option (ℝ → ℝ)),
        evaluate locations capacity lifespan rate solution rounding true = .ok none) := by
  have hperm : List.Perm ((solution.flatten.flatten).insertionSort (· ≤ ·))
      (solution.flatten.flatten) :=
    List.perm_insertionSort _ _
  constructor
  · constructor
    · intro hc
      rw [checkCoverage] at hc
      simp only [Bool.and_eq_true, decide_eq_true_eq, List.all_eq_true, List.mem_range] at hc
      obtain ⟨hlen, helem⟩ := hc
      have hlen' : ((solution.flatten.flatten).insertionSort (· ≤ ·)).length
          = locations.length - solution.length := by omega
      have hsorted_eq : (solution.flatten.flatten).insertionSort (· ≤ ·)
          = List.range' solution.length (locations.length - solution.length) := by
        apply List.ext_getElem
        · rw [hlen', List.length_range']
        · intro i h1 h2
          have := helem i h1
          rw [List.getD_eq_getElem _ _ h1] at this
          rw [this]
          simp [List.getElem_range']
          omega
      rw [← hsorted_eq]
      exact (Multiset.coe_eq_coe.mpr hperm).symm
    · intro hm
      have hpr : List.Perm (solution.flatten.flatten)
          (List.range' solution.length (locations.length - solution.length)) :=
        Multiset.coe_eq_coe.mp hm
      have hsorted_eq : (solution.flatten.flatten).insertionSort (· ≤ ·)
          = List.range' solution.length (locations.length - solution.length) := by
        exact List.eq_of_perm_of_sorted (hperm.trans hpr)
          (List.sorted_insertionSort _ _) (sorted_le_range' _ _)
      rw [checkCoverage]
      simp only [Bool.and_eq_true, decide_eq_true_eq, List.all_eq_true, List.mem_range]
      constructor
      · rw [hsorted_eq, List.length_range']
        omega
      · intro i hi
        rw [hsorted_eq] at hi ⊢
        rw [List.getD_eq_getElem _ _ hi]
        simp [List.getElem_range']
        omega
  · intro h capacity lifespan rate rounding
    rw [evaluate, if_pos ⟨rfl, h⟩]

/-- Witness for C3 at a concrete input: one plant, one customer, the
single-batch solution visiting that customer. -/
theorem claim_C3_coverage_witness :
    (checkCoverage [⟨some 0, some 0, some 0⟩, ⟨some 0, some 0, some 1⟩] [[[1]]] = true ↔
      (↑(([[[1]]] : List (List (List ℕ))).flatten.flatten) : Multiset ℕ) =
        ↑(List.range' 1 1)) ∧
    (checkCoverage [⟨some 0, some 0, some 0⟩, ⟨some 0, some 0, some 1⟩] [[[1]]] = false →
      ∀ (capacity lifespan rate : ℝ) (rounding : Option (ℝ → ℝ)),
        evaluate [⟨some 0, some 0, some 0⟩, ⟨some 0, some 0, some 1⟩]
          capacity lifespan rate [[[1]]] rounding true = .ok none) :=
  claim_C3_coverage [⟨some 0, some 0, some 0⟩, ⟨some 0, some 0, some 1⟩] [[[1]]]
    (by simp)

/-! ## Claim C7: multi-plant aggregation by maximum -/

/-- The accumulated plant loop computes the same result as folding max over
the independently computed per-plant route finish times. -/
theorem evalPlants_eq_finishes (locations : List Location) (capacity lifespan rate : ℝ)
    (rounding : Option (ℝ → ℝ)) (check : Bool) :
    ∀ (routes : List (List (List ℕ))) (plant : ℕ) (acc : ℝ),
    evalPlants locations capacity lifespan rate rounding check plant routes acc =
      match routeFinishList locations capacity lifespan rate rounding check plant routes with
      | .error e => .error e
      | .ok none => .ok none
      | .ok (some ts) => .ok (some (ts.foldl max acc)) := by
  intro routes
  induction routes with
  | nil =>
    intro plant acc
    simp [evalPlants, routeFinishList]
  | cons r rs ih =>
    intro plant acc
    unfold evalPlants routeFinishList
    cases hsr : simulateRoute locations capacity lifespan rate rounding check plant r 0 0 with
    | error e => simp
    | ok o =>
      cases o with
      | none => simp
      | some tFin =>
        simp only
        rw [ih (plant + 1) (max acc tFin)]
        cases hrf : routeFinishList locations capacity lifespan rate rounding check
            (plant + 1) rs with
        | error e => simp
        | ok o2 =>
          cases o2 with
          | none => simp
          | some ts => simp [List.foldl]

/-- Folding max over a list bounds the accumulator and every element. -/
theorem foldl_max_le (l : List ℝ) : ∀ acc : ℝ, acc ≤ l.foldl max acc ∧
    ∀ x ∈ l, x ≤ l.foldl max acc := by
  induction l with
  | nil => exact fun acc => ⟨le_rfl, by simp⟩
  | cons a l ih =>
    intro acc
    rw [List.foldl_cons]
    constructor
    · exact le_trans (le_max_left acc a) (ih (max acc a)).1
    · intro x hx
      rcases List.mem_cons.mp hx with h | h
      · subst h
        exact le_trans (le_max_right acc x) (ih (max acc x)).1
      · exact (ih (max acc a)).2 x h

/-- C7: whenever evaluate returns a numeric makespan, that makespan is the
maximum (together with the initial accumulator zero) of the per-plant route
finish times, and in particular an upper bound of every route finish time;
it is not their sum. -/
theorem claim_C7_makespan_max (locations : List Location) (capacity lifespan rate : ℝ)
    (solution : List (List (List ℕ))) (rounding : Option (ℝ → ℝ)) (check : Bool) (m : ℝ)
    (h : evaluate locations capacity lifespan rate solution rounding check
      = .ok (some m)) :
    ∃ ts : List ℝ,
      routeFinishList locations capacity lifespan rate rounding check 0 solution
        = .ok (some ts) ∧
      m = ts.foldl max 0 ∧ ∀ t ∈ ts, t ≤ m := by
  rw [evaluate] at h
  split at h
  · simp at h
  · rw [evalPlants_eq_finishes] at h
    cases hrf : routeFinishList locations capacity lifespan rate rounding check 0
        solution with
    | error e => rw [hrf] at h; simp at h
    | ok o =>
      cases o with
      | none => rw [hrf] at h; simp at h
      | some ts =>
        rw [hrf] at h
        simp only [Except.ok.injEq, Option.some.injEq] at h
        exact ⟨ts, rfl, h.symm, fun t ht => h ▸ (foldl_max_le ts 0).2 t ht⟩

/-- Witness for C7 at a concrete two-plant input whose route finish times are
1 and 2: the returned makespan is their maximum 2 (and not their sum 3). -/
theorem claim_C7_makespan_max_witness :
    ∃ ts : List ℝ,
      routeFinishList [⟨some 0, some 0, some 0⟩, ⟨some 0, some 0, some 0⟩,
          ⟨some 0, some 0, some 1⟩, ⟨some 0, some 0, some 2⟩] 10 10 1 none true 0
        [[[2]], [[3]]] = .ok (some ts) ∧
      (2 : ℝ) = ts.foldl max 0 ∧ ∀ t ∈ ts, t ≤ (2 : ℝ) := by
  have hcov : checkCoverage [⟨some 0, some 0, some 0⟩, ⟨some 0, some 0, some 0⟩,
      ⟨some 0, some 0, some 1⟩, ⟨some 0, some 0, some 2⟩] [[[2]], [[3]]] = true := rfl
  have hsum0 : sumDemandsAux [⟨some 0, some 0, some 0⟩, ⟨some 0, some 0, some 0⟩,
      ⟨some 0, some 0, some 1⟩, ⟨some 0, some 0, some 2⟩] [2] 0 = .ok 1 := by
    simp [sumDemandsAux, getDemand, getLoc, List.get?]
  have hsum1 : sumDemandsAux [⟨some 0, some 0, some 0⟩, ⟨some 0, some 0, some 0⟩,
      ⟨some 0, some 0, some 1⟩, ⟨some 0, some 0, some 2⟩] [3] 0 = .ok 2 := by
    simp [sumDemandsAux, getDemand, getLoc, List.get?]
  have ht02 : get_travel_time [⟨some 0, some 0, some 0⟩, ⟨some 0, some 0, some 0⟩,
      ⟨some 0, some 0, some 1⟩, ⟨some 0, some 0, some 2⟩] 0 2 none = .ok 0 :=
    get_travel_time_same _ 0 2 0 0 (by norm_num) (by norm_num) rfl rfl rfl rfl
  have ht20 : get_travel_time [⟨some 0, some 0, some 0⟩, ⟨some 0, some 0, some 0⟩,
      ⟨some 0, some 0, some 1⟩, ⟨some 0, some 0, some 2⟩] 2 0 none = .ok 0 :=
    get_travel_time_same _ 2 0 0 0 (by norm_num) (by norm_num) rfl rfl rfl rfl
  have ht13 : get_travel_time [⟨some 0, some 0, some 0⟩, ⟨some 0, some 0, some 0⟩,
      ⟨some 0, some 0, some 1⟩, ⟨some 0, some 0, some 2⟩] 1 3 none = .ok 0 :=
    get_travel_time_same _ 1 3 0 0 (by norm_num) (by norm_num) rfl rfl rfl rfl
  have ht31 : get_travel_time [⟨some 0, some 0, some 0⟩, ⟨some 0, some 0, some 0⟩,
      ⟨some 0, some 0, some 1⟩, ⟨some 0, some 0, some 2⟩] 3 1 none = .ok 0 :=
    get_travel_time_same _ 3 1 0 0 (by norm_num) (by norm_num) rfl rfl rfl rfl
  have hpb0 : processBatch [⟨some 0, some 0, some 0⟩, ⟨some 0, some 0, some 0⟩,
      ⟨some 0, some 0, some 1⟩, ⟨some 0, some 0, some 2⟩] 10 10 1 none true 0 [2] 0 0
      = .ok (some (1, 1)) := by
    rw [processBatch_ok _ 10 10 1 none true 0 2 [] 0 0 1 0 0 0 hsum0
      (fun _ => by norm_num [EPS_VALUE]) ht02 rfl (fun _ => by norm_num [EPS_VALUE]) ht20]
    rw [mergeStep, if_pos (by norm_num)]
    norm_num
  have hpb1 : processBatch [⟨some 0, some 0, some 0⟩, ⟨some 0, some 0, some 0⟩,
      ⟨some 0, some 0, some 1⟩, ⟨some 0, some 0, some 2⟩] 10 10 1 none true 1 [3] 0 0
      = .ok (some (2, 2)) := by
    rw [processBatch_ok _ 10 10 1 none true 1 3 [] 0 0 2 0 0 0 hsum1
      (fun _ => by norm_num [EPS_VALUE]) ht13 rfl (fun _ => by norm_num [EPS_VALUE]) ht31]
    rw [mergeStep, if_pos (by norm_num)]
    norm_num
  have heval : evaluate [⟨some 0, some 0, some 0⟩, ⟨some 0, some 0, some 0⟩,
      ⟨some 0, some 0, some 1⟩, ⟨some 0, some 0, some 2⟩] 10 10 1
      [[[2]], [[3]]] none true = .ok (some 2) := by
    rw [evaluate_cov_pass _ _ _ _ _ _ _ hcov]
    simp [evalPlants, simulateRoute, hpb0, hpb1]
  exact claim_C7_makespan_max _ _ _ _ _ _ _ 2 heval

/-! ## Claim C6: doubling the production rate never increases the makespan -/

/-- Inversion principle for the batch-result refinement order. -/
theorem stepLE_cases (x y : Except String (Option (ℝ × ℝ))) (h : stepLE x y) :
    (∃ e, x = .error e ∧ y = .error e) ∨ (x = .ok none ∧ y = .ok none) ∨
    (∃ q2 u2 q1 u1, x = .ok (some (q2, u2)) ∧ y = .ok (some (q1, u1)) ∧
      q2 ≤ q1 ∧ u2 ≤ u1) := by
  rcases x with e2 | o2 <;> rcases y with e1 | o1
  · simp only [stepLE] at h
    exact Or.inl ⟨e1, by rw [h], rfl⟩
  · rcases o1 with _ | ⟨q1, u1⟩ <;> simp [stepLE] at h
  · rcases o2 with _ | ⟨q2, u2⟩ <;> simp [stepLE] at h
  · rcases o2 with _ | ⟨q2, u2⟩ <;> rcases o1 with _ | ⟨q1, u1⟩
    · exact Or.inr (Or.inl ⟨rfl, rfl⟩)
    · simp [stepLE] at h
    · simp [stepLE] at h
    · simp only [stepLE] at h
      exact Or.inr (Or.inr ⟨q2, u2, q1, u1, rfl, rfl, h.1, h.2⟩)

/-- Inversion principle for the result refinement order. -/
theorem finLE_cases (x y : Except String (Option ℝ)) (h : finLE x y) :
    (∃ e, x = .error e ∧ y = .error e) ∨ (x = .ok none ∧ y = .ok none) ∨
    (∃ x2 x1, x = .ok (some x2) ∧ y = .ok (some x1) ∧ x2 ≤ x1) := by
  rcases x with e2 | o2 <;> rcases y with e1 | o1
  · simp only [finLE] at h
    exact Or.inl ⟨e1, by rw [h], rfl⟩
  · rcases o1 with _ | x1 <;> simp [finLE] at h
  · rcases o2 with _ | x2 <;> simp [finLE] at h
  · rcases o2 with _ | x2 <;> rcases o1 with _ | x1
    · exact Or.inr (Or.inl ⟨rfl, rfl⟩)
    · simp [finLE] at h
    · simp [finLE] at h
    · simp only [finLE] at h
      exact Or.inr (Or.inr ⟨x2, x1, rfl, rfl, h⟩)

/-- A successfully looked-up demand of a non-negative instance is
non-negative. -/
theorem getDemand_nonneg (locations : List Location) (i : ℕ) (d : ℝ)
    (hd : demandsNonneg locations) (h : getDemand locations i = .ok d) : 0 ≤ d := by
  unfold getDemand getLoc at h
  cases hg : locations.get? i with
  | none => rw [hg] at h; simp at h
  | some l =>
    simp only [hg] at h
    cases hdm : l.demand with
    | none => simp only [hdm] at h; simp at h
    | some d2 =>
      simp only [hdm, Except.ok.injEq] at h
      exact h ▸ hd l (List.get?_mem hg) d2 hdm

/-- Demand sums over a non-negative instance are non-negative. -/
theorem sumDemandsAux_nonneg (locations : List Location) (hd : demandsNonneg locations) :
    ∀ (batch : List ℕ) (acc s : ℝ), 0 ≤ acc →
      sumDemandsAux locations batch acc = .ok s → 0 ≤ s := by
  intro batch
  induction batch with
  | nil =>
    intro acc s ha h
    simp only [sumDemandsAux, Except.ok.injEq] at h
    exact h ▸ ha
  | cons i rest ih =>
    intro acc s ha h
    unfold sumDemandsAux at h
    cases hg : getDemand locations i with
    | error e => rw [hg] at h; simp at h
    | ok d =>
      simp only [hg] at h
      have hd0 : 0 ≤ d := getDemand_nonneg locations i d hd hg
      exact ih (acc + d) s (by linarith) h

/-- Closed form of the timeline merge: both branches compute maxima of the
earliest production finish against the shifted vehicle return. -/
theorem mergeStep_eq_max (p t pt d f : ℝ) (hd : 0 ≤ d) :
    mergeStep p t pt d f = (max (p + pt) (t - d), max (p + pt) t + f) := by
  rw [mergeStep]
  by_cases h : t ≤ p + pt
  · rw [if_pos h, max_eq_left (le_trans (sub_le_self t hd) h), max_eq_left h]
  · rw [if_neg h, max_eq_right (le_of_not_le h)]

/-- The timeline merge is monotone in the incoming state and the production
duration. -/
theorem mergeStep_mono (p1 t1 pt1 p2 t2 pt2 d f : ℝ) (hd : 0 ≤ d)
    (hp : p2 ≤ p1) (ht : t2 ≤ t1) (hpt : pt2 ≤ pt1) :
    (mergeStep p2 t2 pt2 d f).1 ≤ (mergeStep p1 t1 pt1 d f).1 ∧
    (mergeStep p2 t2 pt2 d f).2 ≤ (mergeStep p1 t1 pt1 d f).2 := by
  rw [mergeStep_eq_max p1 t1 pt1 d f hd, mergeStep_eq_max p2 t2 pt2 d f hd]
  constructor
  · exact max_le_max (add_le_add hp hpt) (sub_le_sub_right ht d)
  · exact add_le_add_right (max_le_max (add_le_add hp hpt) ht) f

/-- Increasing the rate while decreasing the incoming state refines the batch
result: identical faults and infeasibility verdicts, smaller successor state. -/
theorem processBatch_mono (locations : List Location) (capacity lifespan r1 r2 : ℝ)
    (rounding : Option (ℝ → ℝ)) (check : Bool) (plant : ℕ) (b : List ℕ)
    (p1 t1 p2 t2 : ℝ) (hd : demandsNonneg locations) (hr1 : 0 < r1) (hr12 : r1 ≤ r2)
    (hp : p2 ≤ p1) (ht : t2 ≤ t1) :
    stepLE (processBatch locations capacity lifespan r2 rounding check plant b p2 t2)
      (processBatch locations capacity lifespan r1 rounding check plant b p1 t1) := by
  unfold processBatch
  cases hs : sumDemandsAux locations b 0 with
  | error e => simp only [hs, stepLE]
  | ok pSum =>
    simp only [hs]
    have hps : 0 ≤ pSum := sumDemandsAux_nonneg locations hd b 0 pSum le_rfl hs
    by_cases hc : check = true ∧ capacity + EPS_VALUE ≤ pSum
    · rw [if_pos hc, if_pos hc]
      simp [stepLE]
    · rw [if_neg hc, if_neg hc]
      cases b with
      | nil => simp [stepLE]
      | cons b0 rest =>
        cases ht0 : get_travel_time locations plant b0 rounding with
        | error e => simp only [ht0, stepLE]
        | ok t0 =>
          simp only [ht0]
          cases hl : legsAux locations rounding b0 rest t0 with
          | error e => simp only [hl, stepLE]
          | ok tOut =>
            simp only [hl]
            by_cases hc2 : check = true ∧ lifespan + EPS_VALUE ≤ tOut
            · rw [if_pos hc2, if_pos hc2]
              simp [stepLE]
            · rw [if_neg hc2, if_neg hc2]
              cases hret : get_travel_time locations
                  ((b0 :: rest).getLast (List.cons_ne_nil b0 rest)) plant rounding with
              | error e => simp only [hret, stepLE]
              | ok tRet =>
                simp only [hret, stepLE]
                have hdiv : pSum / r2 ≤ pSum / r1 :=
                  div_le_div_of_nonneg_left hps hr1 hr12
                exact mergeStep_mono p1 t1 (pSum / r1) p2 t2 (pSum / r2)
                  (max 0 (lifespan - tOut)) (tOut + tRet) (le_max_left 0 _) hp ht hdiv

/-- Route simulation preserves the refinement when the rate increases. -/
theorem simulateRoute_mono (locations : List Location) (capacity lifespan r1 r2 : ℝ)
    (rounding : Option (ℝ → ℝ)) (check : Bool) (plant : ℕ)
    (hd : demandsNonneg locations) (hr1 : 0 < r1) (hr12 : r1 ≤ r2) :
    ∀ (route : List (List ℕ)) (p1 t1 p2 t2 : ℝ), p2 ≤ p1 → t2 ≤ t1 →
    finLE (simulateRoute locations capacity lifespan r2 rounding check plant route p2 t2)
      (simulateRoute locations capacity lifespan r1 rounding check plant route p1 t1) := by
  intro route
  induction route with
  | nil =>
    intro p1 t1 p2 t2 hp ht
    simpa [simulateRoute, finLE] using ht
  | cons b bs ih =>
    intro p1 t1 p2 t2 hp ht
    have hstep := processBatch_mono locations capacity lifespan r1 r2 rounding check
      plant b p1 t1 p2 t2 hd hr1 hr12 hp ht
    rcases stepLE_cases _ _ hstep with ⟨e, hx, hy⟩ | ⟨hx, hy⟩ |
      ⟨q2, u2, q1, u1, hx, hy, hq, hu⟩
    · simp only [simulateRoute, hx, hy, finLE]
    · simp only [simulateRoute, hx, hy, finLE]
    · simp only [simulateRoute, hx, hy]
      exact ih q1 u1 q2 u2 hq hu

/-- The plant loop preserves the refinement when the rate increases. -/
theorem evalPlants_mono (locations : List Location) (capacity lifespan r1 r2 : ℝ)
    (rounding : Option (ℝ → ℝ)) (check : Bool)
    (hd : demandsNonneg locations) (hr1 : 0 < r1) (hr12 : r1 ≤ r2) :
    ∀ (routes : List (List (List ℕ))) (plant : ℕ) (acc1 acc2 : ℝ), acc2 ≤ acc1 →
    finLE (evalPlants locations capacity lifespan r2 rounding check plant routes acc2)
      (evalPlants locations capacity lifespan r1 rounding check plant routes acc1) := by
  intro routes
  induction routes with
  | nil =>
    intro plant acc1 acc2 hacc
    simpa [evalPlants, finLE] using hacc
  | cons r rs ih =>
    intro plant acc1 acc2 hacc
    have hroute := simulateRoute_mono locations capacity lifespan r1 r2 rounding check
      plant hd hr1 hr12 r 0 0 0 0 le_rfl le_rfl
    rcases finLE_cases _ _ hroute with ⟨e, hx, hy⟩ | ⟨hx, hy⟩ | ⟨x2, x1, hx, hy, hle⟩
    · simp only [evalPlants, hx, hy, finLE]
    · simp only [evalPlants, hx, hy, finLE]
    · simp only [evalPlants, hx, hy]
      exact ih (plant + 1) (max acc1 x1) (max acc2 x2) (max_le_max hacc hle)

/-- C6: for an instance with non-negative demands and a positive rate, if
evaluate returns a numeric makespan, then evaluating the same solution with
the rate doubled also returns a numeric makespan, and that makespan is not
larger. -/
theorem claim_C6_rate_monotone (locations : List Location) (capacity lifespan rate : ℝ)
    (solution : List (List (List ℕ))) (rounding : Option (ℝ → ℝ)) (check : Bool) (m : ℝ)
    (hd : demandsNonneg locations) (hr : 0 < rate)
    (h : evaluate locations capacity lifespan rate solution rounding check
      = .ok (some m)) :
    ∃ m2 : ℝ, evaluate locations capacity lifespan (2 * rate) solution rounding check
      = .ok (some m2) ∧ m2 ≤ m := by
  rw [evaluate] at h ⊢
  by_cases hcov : check = true ∧ checkCoverage locations solution = false
  · rw [if_pos hcov] at h
    simp at h
  · rw [if_neg hcov] at h
    rw [if_neg hcov]
    have hmono := evalPlants_mono locations capacity lifespan rate (2 * rate) rounding
      check hd hr (by linarith) solution 0 0 0 le_rfl
    rw [h] at hmono
    rcases finLE_cases _ _ hmono with ⟨e, hx, hy⟩ | ⟨hx, hy⟩ | ⟨x2, x1, hx, hy, hle⟩
    · simp at hy
    · simp at hy
    · simp only [Except.ok.injEq, Option.some.injEq] at hy
      exact ⟨x2, hx, hy ▸ hle⟩

/-- Witness for C6 at a concrete input with makespan 2 at rate 1. -/
theorem claim_C6_rate_monotone_witness :
    ∃ m2 : ℝ, evaluate [⟨some 0, some 0, some 0⟩, ⟨some 0, some 0, some 2⟩] 10 10 (2 * 1)
      [[[1]]] none true = .ok (some m2) ∧ m2 ≤ 2 := by
  have hd : demandsNonneg [⟨some 0, some 0, some 0⟩, ⟨some 0, some 0, some 2⟩] := by
    intro l hl d hdem
    fin_cases hl <;> simp_all
    linarith
  have hcov : checkCoverage [⟨some 0, some 0, some 0⟩, ⟨some 0, some 0, some 2⟩]
      [[[1]]] = true := rfl
  have hsum : sumDemandsAux [⟨some 0, some 0, some 0⟩, ⟨some 0, some 0, some 2⟩] [1] 0
      = .ok 2 := by
    simp [sumDemandsAux, getDemand, getLoc, List.get?]
  have ht0 : get_travel_time [⟨some 0, some 0, some 0⟩, ⟨some 0, some 0, some 2⟩]
      0 1 none = .ok 0 :=
    get_travel_time_same _ 0 1 0 0 (by norm_num) (by norm_num) rfl rfl rfl rfl
  have ht1 : get_travel_time [⟨some 0, some 0, some 0⟩, ⟨some 0, some 0, some 2⟩]
      1 0 none = .ok 0 :=
    get_travel_time_same _ 1 0 0 0 (by norm_num) (by norm_num) rfl rfl rfl rfl
  have hpb : processBatch [⟨some 0, some 0, some 0⟩, ⟨some 0, some 0, some 2⟩]
      10 10 1 none true 0 [1] 0 0 = .ok (some (2, 2)) := by
    rw [processBatch_ok _ 10 10 1 none true 0 1 [] 0 0 2 0 0 0 hsum
      (fun _ => by norm_num [EPS_VALUE]) ht0 rfl (fun _ => by norm_num [EPS_VALUE]) ht1]
    rw [mergeStep, if_pos (by norm_num)]
    norm_num
  have heval : evaluate [⟨some 0, some 0, some 0⟩, ⟨some 0, some 0, some 2⟩] 10 10 1
      [[[1]]] none true = .ok (some 2) := by
    rw [evaluate_cov_pass _ _ _ _ _ _ _ hcov]
    simp [evalPlants, simulateRoute, hpb]
  exact claim_C6_rate_monotone [⟨some 0, some 0, some 0⟩, ⟨some 0, some 0, some 2⟩]
    10 10 1 [[[1]]] none true 2 hd (by norm_num) heval

/-! ## Claim C9: travel time contract -/

/-- C9: get_travel_time faults, and never returns a value, when either index
is out of range or either indexed location lacks an x or y coordinate; on
valid inputs it returns the Euclidean distance between the two locations,
passed through the rounding transform when one is supplied and returned
unmodified when the transform is absent. -/
theorem claim_C9_travel_time (locations : List Location) (a b : ℕ)
    (rounding : Option (ℝ → ℝ)) :
    ((locations.length ≤ a ∨ locations.length ≤ b ∨
      (locations.getD a default).x = none ∨ (locations.getD a default).y = none ∨
      (locations.getD b default).x = none ∨ (locations.getD b default).y = none) →
      ∃ e, get_travel_time locations a b rounding = .error e) ∧
    (∀ xa ya xb yb : ℝ, a < locations.length → b < locations.length →
      (locations.getD a default).x = some xa → (locations.getD a default).y = some ya →
      (locations.getD b default).x = some xb → (locations.getD b default).y = some yb →
      get_travel_time locations a b rounding =
        .ok (applyRounding rounding (Real.sqrt ((xa - xb) ^ 2 + (ya - yb) ^ 2)))) := by
  constructor
  · intro h
    unfold get_travel_time
    by_cases ha : a < locations.length
    · rw [if_pos ha]
      by_cases hb : b < locations.length
      · rw [if_pos hb]
        cases hxa : (locations.getD a default).x with
        | none =>
          cases hya : (locations.getD a default).y <;> exact ⟨_, rfl⟩
        | some xa =>
          cases hya : (locations.getD a default).y with
          | none => exact ⟨_, rfl⟩
          | some ya =>
            cases hxb : (locations.getD b default).x with
            | none =>
              cases hyb : (locations.getD b default).y <;> exact ⟨_, rfl⟩
            | some xb =>
              cases hyb : (locations.getD b default).y with
              | none => exact ⟨_, rfl⟩
              | some yb =>
                rcases h with h | h | h | h | h | h <;> first | omega | simp_all
      · rw [if_neg hb]
        exact ⟨_, rfl⟩
    · rw [if_neg ha]
      exact ⟨_, rfl⟩
  · intro xa ya xb yb ha hb hxa hya hxb hyb
    exact get_travel_time_ok locations a b rounding xa ya xb yb ha hb hxa hya hxb hyb

/-- Witness for C9: a location missing its x coordinate faults, and the
distance between the origin and (3, 4) is returned as the unrounded
Euclidean distance. -/
theorem claim_C9_travel_time_witness :
    (∃ e, get_travel_time [⟨none, some 0, some 0⟩] 0 0 none = .error e) ∧
    get_travel_time [⟨some 0, some 0, some 0⟩, ⟨some 3, some 4, some 10⟩] 0 1 none
      = .ok (applyRounding none (Real.sqrt (((0 : ℝ) - 3) ^ 2 + ((0 : ℝ) - 4) ^ 2))) :=
  ⟨(claim_C9_travel_time [⟨none, some 0, some 0⟩] 0 0 none).1
      (Or.inr (Or.inr (Or.inl rfl))),
   (claim_C9_travel_time [⟨some 0, some 0, some 0⟩, ⟨some 3, some 4, some 10⟩] 0 1
      none).2 0 0 3 4 (by norm_num) (by norm_num) rfl rfl rfl rfl⟩

end PTSP
